import Mathlib

/-!
# Verification of the gh-pr-review comment-watch engine

Shallow embedding of the comment-watch engine of `gh-pr-review`:

* the `watch` package (service): the `Comment` / `WatchResult` data model,
  the paginated comment-fetch adapter (`fetchReviewComments`,
  `fetchIssueComments`, `fetchAllComments`) and the polling/diff/debounce/
  timeout/cancellation control loop of `Service.Watch`;
* the exit-code logic of the `watch` command (`runWatch` in `cmd/watch.go`
  together with `ExecuteOrExit` in `cmd/root.go`).

The embedding follows the full watch-service implementation (the copy with
the `Cancelled` result field, the consecutive-error ceiling and cursor-based
pagination), which is the implementation `cmd/watch.go` compiles against.

Modelling conventions:

* The remote GraphQL endpoint is modelled by a `Remote` value holding the
  full review-thread list and the full issue-comment list of the target pull
  request; a page request with `first: 100, after: cursor` answers with the
  next up-to-100 elements and a continuation cursor exactly when more remain.
  A cursor is modelled as the index of the first element of the page.
* Time and scheduling are abstracted into an event trace: each iteration of
  the `select` loop consumes one `WatchEvent` (context done with its cause,
  a poll tick carrying the fetch outcome, or a debounce-timer firing).
  Go's nil debounce channel can never be selected, so a debounce event
  reaching an unarmed state leaves the loop waiting.
* Go maps used as sets (`knownIDs map[string]struct{}`) are modelled as
  lists of strings with membership semantics.
-/

namespace GhPrReview

/-- Go struct `watch.Comment` — a single PR comment (review or issue),
keeping the Go field names. -/
structure Comment where
  ID : String
  NodeID : String
  Body : String
  AuthorLogin : String
  CreatedAt : String
  UpdatedAt : String
  Path : Option String
  Line : Option Int
  CommentType : String
  ThreadID : Option String
  HTMLURL : String
deriving DecidableEq, Repr

/-- Go struct `watch.WatchResult` — the watch outcome: the accumulated new
comments and two independent booleans `TimedOut` and `Cancelled`. -/
structure WatchResult where
  Comments : List Comment
  TimedOut : Bool
  Cancelled : Bool
  WatchedMs : Int
deriving DecidableEq, Repr

/-- A raw GraphQL comment node as selected by both queries
(`id`, `databaseId`, `body`, `createdAt`, `updatedAt`, `url`,
`author \x7b login \x7d`); `Author = none` models a null author. -/
structure RawComment where
  ID : String
  DatabaseID : Int
  Body : String
  CreatedAt : String
  UpdatedAt : String
  URL : String
  Author : Option String
deriving DecidableEq, Repr

/-- A raw review-thread node (`id`, `path`, `line`, `comments`); `Comments`
is the thread's full comment history on the remote. -/
structure RawThread where
  ID : String
  Path : String
  Line : Option Int
  Comments : List RawComment
deriving DecidableEq, Repr

/-- The remote state the GraphQL endpoint answers from: the complete
review-thread listing and the complete issue-comment stream of the PR. -/
structure Remote where
  reviewThreads : List RawThread
  issueComments : List RawComment
deriving DecidableEq, Repr

/-- The normalization performed in `fetchReviewCommentsPage`'s result loop:
`ID` is `fmt.Sprintf("review-%d", c.DatabaseID)`, `Path`/`Line`/`ThreadID`
come from the owning thread, `Type` is `"review"`. -/
def normalizeReviewComment (thread : RawThread) (c : RawComment) : Comment :=
  { ID := "review-" ++ toString c.DatabaseID
    NodeID := c.ID
    Body := c.Body
    AuthorLogin := c.Author.getD ""
    CreatedAt := c.CreatedAt
    UpdatedAt := c.UpdatedAt
    Path := some thread.Path
    Line := thread.Line
    CommentType := "review"
    ThreadID := some thread.ID
    HTMLURL := c.URL }

/-- The normalization performed in `fetchIssueCommentsPage`'s result loop:
`ID` is `fmt.Sprintf("issue-%d", c.DatabaseID)`, no path/line/thread fields,
`Type` is `"issue"`. -/
def normalizeIssueComment (c : RawComment) : Comment :=
  { ID := "issue-" ++ toString c.DatabaseID
    NodeID := c.ID
    Body := c.Body
    AuthorLogin := c.Author.getD ""
    CreatedAt := c.CreatedAt
    UpdatedAt := c.UpdatedAt
    Path := none
    Line := none
    CommentType := "issue"
    ThreadID := none
    HTMLURL := c.URL }

/-- One page of the `ReviewComments` query (`reviewThreads(first: 100,
after: cursor)`): up to 100 threads starting at the cursor, each carrying
only its first 100 comments (the inner `comments(first: 100)` selection has
no continuation), plus the next cursor exactly when `pageInfo.hasNextPage`. -/
def reviewCommentsPage (threads : List RawThread) (cursor : Nat) :
    List Comment × Option Nat :=
  (((threads.drop cursor).take 100).flatMap
      (fun t => (t.Comments.take 100).map (normalizeReviewComment t)),
   if cursor + 100 < threads.length then some (cursor + 100) else none)

/-- The cursor loop of `fetchReviewComments`: request a page, append its
comments, continue while a next cursor is reported. -/
def fetchReviewCommentsFrom (threads : List RawThread) (cursor : Nat) :
    List Comment :=
  if _h : cursor + 100 < threads.length then
    (reviewCommentsPage threads cursor).1 ++
      fetchReviewCommentsFrom threads (cursor + 100)
  else
    (reviewCommentsPage threads cursor).1
termination_by threads.length - cursor
decreasing_by omega

/-- Go func `fetchReviewComments` — paginate the review-thread listing from
the start. -/
def fetchReviewComments (remote : Remote) : List Comment :=
  fetchReviewCommentsFrom remote.reviewThreads 0

/-- One page of the `IssueComments` query (`comments(first: 100,
after: cursor)`). -/
def issueCommentsPage (cs : List RawComment) (cursor : Nat) :
    List Comment × Option Nat :=
  (((cs.drop cursor).take 100).map normalizeIssueComment,
   if cursor + 100 < cs.length then some (cursor + 100) else none)

/-- The cursor loop of `fetchIssueComments`. -/
def fetchIssueCommentsFrom (cs : List RawComment) (cursor : Nat) :
    List Comment :=
  if _h : cursor + 100 < cs.length then
    (issueCommentsPage cs cursor).1 ++ fetchIssueCommentsFrom cs (cursor + 100)
  else
    (issueCommentsPage cs cursor).1
termination_by cs.length - cursor
decreasing_by omega

/-- Go func `fetchIssueComments` — paginate the issue-comment stream from
the start. -/
def fetchIssueComments (remote : Remote) : List Comment :=
  fetchIssueCommentsFrom remote.issueComments 0

/-- Go func `fetchAllComments` — review comments first, then (when
`includeIssue`) the issue comments. -/
def fetchAllComments (remote : Remote) (includeIssue : Bool) : List Comment :=
  fetchReviewComments remote ++
    (if includeIssue then fetchIssueComments remote else [])

/-- Go func `fetchAllCommentIDs` — the identities of a full fetch, used to
seed the baseline `knownIDs` set. -/
def fetchAllCommentIDs (remote : Remote) (includeIssue : Bool) : List String :=
  (fetchAllComments remote includeIssue).map (·.ID)

/-- The mutable state of `Service.Watch`'s control loop: the `knownIDs` set
(Go map used as a set), the `newComments` accumulator, whether the debounce
channel is non-nil (`debounceCh` armed), and the consecutive poll-failure
counter. -/
structure LoopState where
  knownIDs : List String
  newComments : List Comment
  debounceArmed : Bool
  consecutiveErrors : Nat
deriving DecidableEq, Repr

/-- Why `timeoutCtx.Done()` fired: the deadline expired, the parent context
was cancelled by the interrupt listener, or (race) the deadline fired first
and the interrupt arrived before the case ran. -/
inductive DoneCause where
  | deadline
  | interrupt
  | deadlineThenInterrupt
deriving DecidableEq, Repr

/-- Value of `errors.Is(timeoutCtx.Err(), context.DeadlineExceeded)` per cause:
the timeout context's error is `DeadlineExceeded` exactly when its own
deadline fired before any parent cancellation reached it. -/
def causeTimedOut : DoneCause → Bool
  | .deadline => true
  | .interrupt => false
  | .deadlineThenInterrupt => true

/-- Value of `errors.Is(ctx.Err(), context.Canceled)` per cause: the parent
context's error is `Canceled` exactly when the interrupt listener called
`cancel()`. -/
def causeCancelled : DoneCause → Bool
  | .deadline => false
  | .interrupt => true
  | .deadlineThenInterrupt => true

/-- One firing of the `select` statement: the timeout context completing
(with its cause and the elapsed milliseconds), a ticker tick whose fetch
either failed (`none`) or returned comments, or the debounce timer firing. -/
inductive WatchEvent where
  | ctxDone (cause : DoneCause) (ms : Int)
  | tick (fetched : Option (List Comment))
  | debounceFire (ms : Int)
deriving DecidableEq, Repr

/-- The body of the per-comment loop inside the tick case: an unseen ID is
added to `knownIDs`, the comment is appended to `newComments`, and the
debounce timer is (re)armed. Seen comments leave the state unchanged. -/
def observeComment (st : LoopState) (c : Comment) : LoopState :=
  if st.knownIDs.contains c.ID then st
  else
    { st with
      knownIDs := c.ID :: st.knownIDs
      newComments := st.newComments ++ [c]
      debounceArmed := true }

/-- The tick case's diff pass: `for _, c := range currentComments`. -/
def processFetch (st : LoopState) (cs : List Comment) : LoopState :=
  cs.foldl observeComment st

/-- Constant `maxConsecutiveErrs` in `Service.Watch`. -/
def maxConsecutiveErrs : Nat := 3

/-- Outcome of handling one event: keep looping, return a `WatchResult`, or
fail with the consecutive-error count. -/
inductive StepResult where
  | cont (st : LoopState)
  | finished (r : WatchResult)
  | failed (consecutiveErrors : Nat)
deriving DecidableEq, Repr

/-- One iteration of the `select` loop of `Service.Watch`:

* `timeoutCtx.Done()`: return the accumulated comments with
  `TimedOut`/`Cancelled` derived from the two context errors;
* ticker tick with failed fetch: increment `consecutiveErrors` and fail once
  it reaches `maxConsecutiveErrs`, otherwise continue;
* ticker tick with fetched comments: reset `consecutiveErrors` and run the
  diff pass;
* debounce firing: return the accumulated comments with
  `TimedOut = false`, `Cancelled = false`. A nil debounce channel is never
  selected, so an unarmed firing leaves the loop waiting. -/
def watchStep (st : LoopState) : WatchEvent → StepResult
  | .ctxDone cause ms =>
      .finished
        { Comments := st.newComments
          TimedOut := causeTimedOut cause
          Cancelled := causeCancelled cause
          WatchedMs := ms }
  | .tick none =>
      if st.consecutiveErrors + 1 ≥ maxConsecutiveErrs then
        .failed (st.consecutiveErrors + 1)
      else
        .cont { st with consecutiveErrors := st.consecutiveErrors + 1 }
  | .tick (some cs) =>
      .cont (processFetch { st with consecutiveErrors := 0 } cs)
  | .debounceFire ms =>
      if st.debounceArmed then
        .finished
          { Comments := st.newComments
            TimedOut := false
            Cancelled := false
            WatchedMs := ms }
      else
        .cont st

/-- The error value `Service.Watch` can return: the initial fetch failed, or
polling failed after `n` consecutive errors. -/
inductive WatchError where
  | initialFetch
  | polling (n : Nat)
deriving DecidableEq, Repr

/-- A watch run's status after consuming an event trace: returned a result,
returned an error, or still looping (trace exhausted). -/
inductive WatchOutcome where
  | ok (r : WatchResult)
  | err (e : WatchError)
  | running (st : LoopState)
deriving DecidableEq, Repr

/-- The `for/select` loop of `Service.Watch` over an event trace. -/
def watchLoop (st : LoopState) : List WatchEvent → WatchOutcome
  | [] => .running st
  | ev :: evs =>
      match watchStep st ev with
      | .cont st' => watchLoop st' evs
      | .finished r => .ok r
      | .failed n => .err (.polling n)

/-- The loop state after the initial snapshot: `knownIDs` seeded with every
baseline identity, empty accumulator, debounce unarmed, zero errors. -/
def initialState (base : List Comment) : LoopState :=
  { knownIDs := base.map (·.ID)
    newComments := []
    debounceArmed := false
    consecutiveErrors := 0 }

/-- Go method `Service.Watch`: a failed initial fetch is fatal; otherwise seed
`knownIDs` from the baseline and run the control loop over the events. -/
def Watch (initialFetch : Option (List Comment)) (events : List WatchEvent) :
    WatchOutcome :=
  match initialFetch with
  | none => .err .initialFetch
  | some base => watchLoop (initialState base) events

/-- The exit-code logic of the `watch` command: an error from
`runWatch` reaches `ExecuteOrExit` and exits 1; a result exits 2 exactly
when `result.TimedOut && !result.Cancelled && len(result.Comments) == 0`,
and 0 otherwise. A still-running watch has no exit code. -/
def watchExitCode : WatchOutcome → Option Nat
  | .err _ => some 1
  | .ok r =>
      some (if r.TimedOut && !r.Cancelled && r.Comments.isEmpty then 2 else 0)
  | .running _ => none

/-- Follows the spec's words (§4.2 Snapshot/Diff Tracker):
`diff(observedSet, freshComments) → (newComments, updatedObservedSet)`.
A fetched comment whose identity is absent from the observed set is
classified as new — added to the updated set and to `newComments`,
preserving the input order; comments whose identity is already present are
dropped silently. -/
def diffSpec (observed : List String) : List Comment → List Comment × List String
  | [] => ([], observed)
  | c :: rest =>
      if c.ID ∈ observed then diffSpec observed rest
      else
        let next := diffSpec (c.ID :: observed) rest
        (c :: next.1, next.2)

/-- Follows the spec's words (§4.1 Comment Source Adapter): the complete
current comment history — every comment of every review thread (and, when
requested, every issue comment), normalized, with no truncation inside a
thread. -/
def fetchAllCommentsSpec (remote : Remote) (includeIssue : Bool) :
    List Comment :=
  remote.reviewThreads.flatMap
      (fun t => t.Comments.map (normalizeReviewComment t)) ++
    (if includeIssue then remote.issueComments.map normalizeIssueComment
     else [])

/-! ## Pagination characterization -/

/-- The review-thread cursor loop covers every thread from the cursor on:
each page contributes its up-to-100 threads, each thread truncated to its
first 100 comments. -/
theorem fetchReviewCommentsFrom_eq (threads : List RawThread) (cursor : Nat) :
    fetchReviewCommentsFrom threads cursor =
      (threads.drop cursor).flatMap
        (fun t => (t.Comments.take 100).map (normalizeReviewComment t)) := by
  rw [fetchReviewCommentsFrom]
  split
  · rw [fetchReviewCommentsFrom_eq threads (cursor + 100)]
    show ((threads.drop cursor).take 100).flatMap _ ++ _ = _
    rw [show threads.drop (cursor + 100) = (threads.drop cursor).drop 100 by
          rw [List.drop_drop]]
    rw [← List.flatMap_append, List.take_append_drop]
  · show ((threads.drop cursor).take 100).flatMap _ = _
    rw [List.take_of_length_le]
    rw [List.length_drop]
    omega
termination_by threads.length - cursor
decreasing_by omega

/-- The issue-comment cursor loop covers every issue comment from the cursor
on. -/
theorem fetchIssueCommentsFrom_eq (cs : List RawComment) (cursor : Nat) :
    fetchIssueCommentsFrom cs cursor =
      (cs.drop cursor).map normalizeIssueComment := by
  rw [fetchIssueCommentsFrom]
  split
  · rw [fetchIssueCommentsFrom_eq cs (cursor + 100)]
    show ((cs.drop cursor).take 100).map _ ++ _ = _
    rw [show cs.drop (cursor + 100) = (cs.drop cursor).drop 100 by
          rw [List.drop_drop]]
    rw [← List.map_append, List.take_append_drop]
  · show ((cs.drop cursor).take 100).map _ = _
    rw [List.take_of_length_le]
    rw [List.length_drop]
    omega
termination_by cs.length - cursor
decreasing_by omega

/-- Closed form of `fetchReviewComments`. -/
theorem fetchReviewComments_eq (remote : Remote) :
    fetchReviewComments remote =
      remote.reviewThreads.flatMap
        (fun t => (t.Comments.take 100).map (normalizeReviewComment t)) := by
  simpa using fetchReviewCommentsFrom_eq remote.reviewThreads 0

/-- Closed form of `fetchIssueComments`. -/
theorem fetchIssueComments_eq (remote : Remote) :
    fetchIssueComments remote =
      remote.issueComments.map normalizeIssueComment := by
  simpa using fetchIssueCommentsFrom_eq remote.issueComments 0

/-- A review thread holding more than 100 comments: thread-listing
pagination cannot recover its tail because the per-thread comment selection
is a single uncursored page. -/
def bigThread : RawThread :=
  { ID := "PRRT_big"
    Path := "main.go"
    Line := some 3
    Comments :=
      (List.range 101).map fun i =>
        { ID := "node" ++ toString i
          DatabaseID := Int.ofNat i
          Body := "b"
          CreatedAt := "2025-01-01T00:00:00Z"
          UpdatedAt := "2025-01-01T00:00:00Z"
          URL := "u"
          Author := some "alice" } }

/-- A remote whose single review thread has 101 comments. -/
def bigRemote : Remote :=
  { reviewThreads := [bigThread], issueComments := [] }

/-- C4 (counterexample): the fetch is **not** always the complete current
comment history — on a remote whose one review thread holds 101 comments,
`fetchAllComments` returns only the thread's first 100 comments, because the
inner `comments(first: 100)` selection carries no cursor continuation. -/
theorem fetchAll_not_complete_history :
    ¬ (∀ (remote : Remote) (includeIssue : Bool),
        fetchAllComments remote includeIssue =
          fetchAllCommentsSpec remote includeIssue) := by
  intro h
  have ha : (fetchAllComments bigRemote false).length = 100 := by
    rw [fetchAllComments, fetchReviewComments_eq]
    simp [bigRemote, bigThread]
  have hb : (fetchAllCommentsSpec bigRemote false).length = 101 := by
    rw [fetchAllCommentsSpec]
    simp [bigRemote, bigThread]
  rw [h bigRemote false, hb] at ha
  exact absurd ha (by decide)

/-- C4 (amended): `fetchAllComments` paginates the review-thread listing and
the issue-comment stream to completion — the result covers every thread of
the listing and, when requested, every issue comment, however many pages
that takes — but within each thread only the first page of up to 100
comments is fetched. -/
theorem fetchAll_pagination (remote : Remote) (includeIssue : Bool) :
    fetchAllComments remote includeIssue =
      remote.reviewThreads.flatMap
          (fun t => (t.Comments.take 100).map (normalizeReviewComment t)) ++
        (if includeIssue then remote.issueComments.map normalizeIssueComment
         else []) := by
  rw [fetchAllComments, fetchReviewComments_eq]
  cases includeIssue
  · rfl
  · rw [if_pos rfl, if_pos rfl, fetchIssueComments_eq]

/-! ## Normalization and identities -/

/-- No review identity ever equals an issue identity: the two namespace
prefixes differ. -/
theorem review_issue_id_disjoint (a b : String) :
    "review-" ++ a ≠ "issue-" ++ b := by
  intro h
  have hd := congrArg String.data h
  rw [String.data_append, String.data_append] at hd
  simp [String.data] at hd

/-- C8: normalization computes the identity as `"<namespace>-<numericId>"`
(so it is a function of the namespace and the stable numeric id alone);
review-namespace comments carry the owning thread's path, line and thread
identity, issue-namespace comments carry none of them; and the two
namespaces can never collide on an identity. -/
theorem normalize_identity_shape :
    (∀ (t : RawThread) (c : RawComment),
        (normalizeReviewComment t c).ID = "review-" ++ toString c.DatabaseID ∧
        (normalizeReviewComment t c).Path = some t.Path ∧
        (normalizeReviewComment t c).Line = t.Line ∧
        (normalizeReviewComment t c).ThreadID = some t.ID) ∧
    (∀ c : RawComment,
        (normalizeIssueComment c).ID = "issue-" ++ toString c.DatabaseID ∧
        (normalizeIssueComment c).Path = none ∧
        (normalizeIssueComment c).Line = none ∧
        (normalizeIssueComment c).ThreadID = none) ∧
    (∀ (t : RawThread) (c c' : RawComment),
        (normalizeReviewComment t c).ID ≠ (normalizeIssueComment c').ID) := by
  refine ⟨fun t c => ⟨rfl, rfl, rfl, rfl⟩, fun c => ⟨rfl, rfl, rfl, rfl⟩,
    fun t c c' => ?_⟩
  exact review_issue_id_disjoint _ _

/-- Witness for C8 at a concrete comment: the review identity of database id
7 is `"review-7"`, distinct from the issue identity `"issue-7"`. -/
theorem normalize_identity_shape_witness :
    (normalizeReviewComment bigThread
        { ID := "n", DatabaseID := 7, Body := "", CreatedAt := "",
          UpdatedAt := "", URL := "", Author := none }).ID ≠
      (normalizeIssueComment
        { ID := "n", DatabaseID := 7, Body := "", CreatedAt := "",
          UpdatedAt := "", URL := "", Author := none }).ID :=
  normalize_identity_shape.2.2 bigThread _ _

/-! ## The diff pass against the spec's Diff Tracker -/

theorem processFetch_nil (st : LoopState) : processFetch st [] = st := rfl

theorem processFetch_cons (st : LoopState) (c : Comment) (rest : List Comment) :
    processFetch st (c :: rest) = processFetch (observeComment st c) rest := rfl

/-- The diff pass agrees with the spec's `diff` on any set representation
with the same membership: the accumulator gains exactly the spec's
`newComments` (in order, at the end), the observed set gains exactly the
spec's updated set (up to membership), the debounce timer is armed iff it
was armed or a new comment appeared, and the error counter is untouched. -/
theorem processFetch_char (cs : List Comment) :
    ∀ (st : LoopState) (obs : List String),
      (∀ x, x ∈ st.knownIDs ↔ x ∈ obs) →
      (processFetch st cs).newComments
          = st.newComments ++ (diffSpec obs cs).1 ∧
      (∀ x, x ∈ (processFetch st cs).knownIDs ↔ x ∈ (diffSpec obs cs).2) ∧
      (processFetch st cs).debounceArmed
          = (st.debounceArmed || !(diffSpec obs cs).1.isEmpty) ∧
      (processFetch st cs).consecutiveErrors = st.consecutiveErrors := by
  induction cs with
  | nil => intro st obs h; simpa [processFetch_nil, diffSpec] using h
  | cons c rest ih =>
    intro st obs h
    rw [processFetch_cons, diffSpec]
    by_cases hc : c.ID ∈ obs
    · have hcontains : st.knownIDs.contains c.ID = true :=
        List.elem_eq_true_of_mem ((h c.ID).mpr hc)
      rw [if_pos hc]
      have hobserve : observeComment st c = st := by
        rw [observeComment, if_pos hcontains]
      rw [hobserve]
      exact ih st obs h
    · have hcontains : st.knownIDs.contains c.ID = false := by
        cases hb : st.knownIDs.contains c.ID
        · rfl
        · exact absurd ((h c.ID).mp (List.mem_of_elem_eq_true hb)) hc
      rw [if_neg hc]
      have hobserve : observeComment st c =
          { st with
            knownIDs := c.ID :: st.knownIDs
            newComments := st.newComments ++ [c]
            debounceArmed := true } := by
        rw [observeComment,
          if_neg (fun hx => hc ((h c.ID).mp (List.mem_of_elem_eq_true hx)))]
      rw [hobserve]
      obtain ⟨h1, h2, h3, h4⟩ :=
        ih { st with
              knownIDs := c.ID :: st.knownIDs
              newComments := st.newComments ++ [c]
              debounceArmed := true }
          (c.ID :: obs) (by intro x; simp [h x])
      refine ⟨?_, h2, ?_, h4⟩
      · simpa using h1
      · simpa using h3

/-- The spec diff's `newComments` is a subsequence of the fetched input:
input order is preserved. -/
theorem diffSpec_sublist (cs : List Comment) :
    ∀ obs : List String, (diffSpec obs cs).1.Sublist cs := by
  induction cs with
  | nil => intro obs; simp [diffSpec]
  | cons c rest ih =>
    intro obs
    rw [diffSpec]
    by_cases hc : c.ID ∈ obs
    · rw [if_pos hc]; exact (ih obs).cons c
    · rw [if_neg hc]; exact (ih (c.ID :: obs)).cons₂ c

/-- Every comment the spec diff classifies as new has an identity absent
from the observed set it started from. -/
theorem diffSpec_new_unobserved (cs : List Comment) :
    ∀ (obs : List String) (c : Comment),
      c ∈ (diffSpec obs cs).1 → c.ID ∉ obs := by
  induction cs with
  | nil => intro obs c hmem; simp [diffSpec] at hmem
  | cons d rest ih =>
    intro obs c hmem
    rw [diffSpec] at hmem
    by_cases hd : d.ID ∈ obs
    · rw [if_pos hd] at hmem
      exact ih obs c hmem
    · rw [if_neg hd] at hmem
      rcases List.mem_cons.mp hmem with hcd | hrest
      · rw [hcd]; exact hd
      · intro hobs
        exact ih (d.ID :: obs) c hrest (List.mem_cons_of_mem _ hobs)

/-- The spec diff's updated observed set holds exactly the old identities
plus the identities of the newly classified comments. -/
theorem diffSpec_mem_updated (cs : List Comment) :
    ∀ (obs : List String) (x : String),
      x ∈ (diffSpec obs cs).2 ↔
        x ∈ obs ∨ ∃ c ∈ (diffSpec obs cs).1, c.ID = x := by
  induction cs with
  | nil => intro obs x; simp [diffSpec]
  | cons d rest ih =>
    intro obs x
    rw [diffSpec]
    by_cases hd : d.ID ∈ obs
    · rw [if_pos hd]; exact ih obs x
    · rw [if_neg hd]
      rw [ih (d.ID :: obs) x]
      simp only [List.mem_cons]
      aesop

/-- After the spec diff, every fetched identity is in the updated observed
set — nothing with an unseen identity is skipped without being recorded. -/
theorem diffSpec_input_observed (cs : List Comment) :
    ∀ (obs : List String) (c : Comment),
      c ∈ cs → c.ID ∈ (diffSpec obs cs).2 := by
  induction cs with
  | nil => intro obs c hmem; simp at hmem
  | cons d rest ih =>
    intro obs c hmem
    rw [diffSpec]
    by_cases hd : d.ID ∈ obs
    · rw [if_pos hd]
      rcases List.mem_cons.mp hmem with hcd | hrest
      · rw [hcd]
        exact (diffSpec_mem_updated rest obs d.ID).mpr (Or.inl hd)
      · exact ih obs c hrest
    · rw [if_neg hd]
      rcases List.mem_cons.mp hmem with hcd | hrest
      · rw [hcd]
        exact (diffSpec_mem_updated rest (d.ID :: obs) d.ID).mpr
          (Or.inl (List.mem_cons_self _ _))
      · exact ih (d.ID :: obs) c hrest

/-- The diff pass never touches the consecutive-error counter. -/
theorem processFetch_consecutiveErrors (cs : List Comment) :
    ∀ st : LoopState,
      (processFetch st cs).consecutiveErrors = st.consecutiveErrors := by
  induction cs with
  | nil => intro st; rfl
  | cons c rest ih =>
    intro st
    rw [processFetch_cons, ih]
    rw [observeComment]
    split <;> rfl

/-! ## Control-loop invariant -/

/-- Invariant threaded through the control loop: every baseline identity is
in `knownIDs`, no accumulated comment carries a baseline identity, and an
armed debounce timer implies a non-empty accumulator. -/
def BaselineInv (base : List String) (st : LoopState) : Prop :=
  (∀ x ∈ base, x ∈ st.knownIDs) ∧
  (∀ c ∈ st.newComments, c.ID ∉ base) ∧
  (st.debounceArmed = true → st.newComments ≠ [])

/-- A continuing step preserves the invariant. -/
theorem watchStep_cont_inv (base : List String) (st st' : LoopState)
    (ev : WatchEvent) (h : watchStep st ev = .cont st')
    (hinv : BaselineInv base st) : BaselineInv base st' := by
  cases ev with
  | ctxDone cause ms => simp [watchStep] at h
  | tick fetched =>
    cases fetched with
    | none =>
      simp only [watchStep] at h
      split at h
      · simp at h
      · injection h with h'
        subst h'
        exact hinv
    | some cs =>
      simp only [watchStep] at h
      injection h with h'
      subst h'
      obtain ⟨h1, h2, h3, _h4⟩ :=
        processFetch_char cs { st with consecutiveErrors := 0 }
          st.knownIDs (fun x => Iff.rfl)
      refine ⟨?_, ?_, ?_⟩
      · intro x hx
        exact (h2 x).mpr
          ((diffSpec_mem_updated cs st.knownIDs x).mpr
            (Or.inl (hinv.1 x hx)))
      · intro c hcmem
        rw [h1] at hcmem
        rcases List.mem_append.mp hcmem with hold | hnew
        · exact hinv.2.1 c hold
        · intro hbase
          exact diffSpec_new_unobserved cs st.knownIDs c hnew
            (hinv.1 _ hbase)
      · intro harmed
        rw [h1]
        rw [h3] at harmed
        rcases Bool.or_eq_true_iff.mp harmed with ha | hb
        · intro hE
          exact hinv.2.2 ha (List.append_eq_nil.mp hE).1
        · intro hE
          rw [(List.append_eq_nil.mp hE).2] at hb
          simp at hb
  | debounceFire ms =>
    simp only [watchStep] at h
    split at h
    · simp at h
    · injection h with h'
      subst h'
      exact hinv

/-- A continuing event just advances the loop. -/
theorem watchLoop_cons_cont (st st' : LoopState) (ev : WatchEvent)
    (evs : List WatchEvent) (h : watchStep st ev = .cont st') :
    watchLoop st (ev :: evs) = watchLoop st' evs := by
  rw [watchLoop, h]

/-- Any run from an invariant-satisfying state that returns a result
returns no baseline identity, and returns a non-empty accumulator unless it
was terminated by the context (timeout or cancellation). -/
theorem watchLoop_ok_props (base : List String) :
    ∀ (evs : List WatchEvent) (st : LoopState) (r : WatchResult),
      BaselineInv base st → watchLoop st evs = .ok r →
      (∀ c ∈ r.Comments, c.ID ∉ base) ∧
      (r.TimedOut = false → r.Cancelled = false → r.Comments ≠ []) := by
  intro evs
  induction evs with
  | nil => intro st r _ h; simp [watchLoop] at h
  | cons ev rest ih =>
    intro st r hinv h
    rw [watchLoop] at h
    cases hstep : watchStep st ev with
    | cont st2 =>
      rw [hstep] at h
      exact ih st2 r (watchStep_cont_inv base st st2 ev hstep hinv) h
    | failed n => rw [hstep] at h; simp at h
    | finished r2 =>
      rw [hstep] at h
      injection h with h'
      subst h'
      cases ev with
      | ctxDone cause ms =>
        simp only [watchStep] at hstep
        injection hstep with h2
        subst h2
        refine ⟨fun c hcmem => hinv.2.1 c hcmem, fun hT hC => ?_⟩
        cases cause
        · simp [causeTimedOut] at hT
        · simp [causeCancelled] at hC
        · simp [causeTimedOut] at hT
      | tick fetched =>
        cases fetched with
        | none =>
          simp only [watchStep] at hstep
          split at hstep <;> simp at hstep
        | some cs => simp [watchStep] at hstep
      | debounceFire ms =>
        simp only [watchStep] at hstep
        split at hstep
        · rename_i harm
          injection hstep with h2
          subst h2
          exact ⟨fun c hcmem => hinv.2.1 c hcmem, fun _ _ => hinv.2.2 harm⟩
        · simp at hstep

/-! ## Concrete sample data -/

/-- A sample issue comment, used to instantiate hypothesis-bearing
theorems. -/
def sampleIssueComment : Comment :=
  { ID := "issue-1", NodeID := "IC_1", Body := "ping", AuthorLogin := "bob",
    CreatedAt := "2025-01-01T00:00:00Z", UpdatedAt := "", Path := none,
    Line := none, CommentType := "issue", ThreadID := none, HTMLURL := "" }

/-- A sample review comment. -/
def sampleReviewComment : Comment :=
  { ID := "review-2", NodeID := "RC_2", Body := "nit", AuthorLogin := "eve",
    CreatedAt := "2025-01-01T00:01:00Z", UpdatedAt := "", Path := some "a.go",
    Line := some 10, CommentType := "review", ThreadID := some "T1",
    HTMLURL := "" }

/-- Baseline of a sample run: one issue comment already present. -/
def sampleBase : List Comment := [sampleIssueComment]

/-- Events of a sample run: one successful poll that re-sees the baseline
comment and discovers the review comment, then the deadline. -/
def sampleEvents : List WatchEvent :=
  [.tick (some [sampleIssueComment, sampleReviewComment]),
   .ctxDone .deadline 99]

/-- The result of the sample run. -/
def sampleResult : WatchResult :=
  { Comments := [sampleReviewComment], TimedOut := true, Cancelled := false,
    WatchedMs := 99 }

/-- A sample loop state whose observed set holds one issue identity. -/
def sampleState : LoopState :=
  { knownIDs := ["issue-1"], newComments := [], debounceArmed := false,
    consecutiveErrors := 0 }

/-! ## Claim theorems -/

/-- C1: a watch run terminated by the external interrupt returns a
non-error `WatchResult` with `Cancelled = true`, whatever the loop state at
that moment; `TimedOut` is derived independently from the deadline signal —
an interrupt delivered before the deadline yields `Cancelled = true` with
`TimedOut = false`, and the race where both signals fired yields both
`true` — two independent booleans, not an enum. -/
theorem watch_cancelled_on_interrupt (st : LoopState) (ms : Int)
    (rest : List WatchEvent) :
    watchLoop st (.ctxDone .interrupt ms :: rest) =
        .ok { Comments := st.newComments, TimedOut := false,
              Cancelled := true, WatchedMs := ms } ∧
    watchLoop st (.ctxDone .deadlineThenInterrupt ms :: rest) =
        .ok { Comments := st.newComments, TimedOut := true,
              Cancelled := true, WatchedMs := ms } :=
  ⟨rfl, rfl⟩

/-- C2: polling fails fatally after exactly 3 consecutive poll-fetch
failures: three failing ticks from a fresh watch produce the polling error
with count 3 whatever events follow; fewer than 3 failing ticks leave the
watch running with only the counter advanced; and a successful fetch
continues the loop with the counter reset to zero. -/
theorem poll_failure_ceiling :
    (∀ (base : List Comment) (rest : List WatchEvent),
        Watch (some base) (.tick none :: .tick none :: .tick none :: rest) =
          .err (.polling 3)) ∧
    (∀ (st : LoopState) (k : Nat), st.consecutiveErrors = 0 → k < 3 →
        watchLoop st (List.replicate k (.tick none)) =
          .running { st with consecutiveErrors := k }) ∧
    (∀ (st : LoopState) (cs : List Comment),
        ∃ st', watchStep st (.tick (some cs)) = .cont st' ∧
          st'.consecutiveErrors = 0) := by
  refine ⟨fun base rest => rfl, ?_, ?_⟩
  · intro st k h0 hk
    obtain ⟨ki, nc, da, ce⟩ := st
    have h0' : ce = 0 := h0
    subst h0'
    interval_cases k
    · rfl
    · rfl
    · rfl
  · intro st cs
    exact ⟨_, rfl, processFetch_consecutiveErrors cs _⟩

/-- Witness for C2: from a fresh state, two failing polls leave the watch
running with the counter at 2 — no fatal error before the third failure. -/
theorem poll_failure_ceiling_witness :
    watchLoop (initialState []) (List.replicate 2 (.tick none)) =
      .running { initialState [] with consecutiveErrors := 2 } :=
  poll_failure_ceiling.2.1 (initialState []) 2 rfl (by decide)

/-- C3: a comment identity present in the initial snapshot never appears in
the `Comments` of a returned result, regardless of the events of the run. -/
theorem baseline_never_reported (base : List Comment)
    (events : List WatchEvent) (r : WatchResult)
    (h : Watch (some base) events = .ok r) :
    ∀ c ∈ r.Comments, c.ID ∉ base.map (·.ID) := by
  have hinv : BaselineInv (base.map (·.ID)) (initialState base) :=
    ⟨fun x hx => hx, by simp [initialState], by simp [initialState]⟩
  exact (watchLoop_ok_props (base.map (·.ID)) events (initialState base) r
    hinv h).1

/-- Witness for C3 on a concrete run: the newly reported review comment's
identity is not among the baseline identities. -/
theorem baseline_never_reported_witness :
    sampleReviewComment.ID ∉ sampleBase.map (·.ID) :=
  baseline_never_reported sampleBase sampleEvents sampleResult rfl
    sampleReviewComment (by decide)

/-- C5: when the overall timeout fires, the watch returns a non-error
result with `TimedOut = true` whose `Comments` is exactly the accumulator
at that moment (possibly empty) — accumulated comments are never discarded;
and whatever the cause of the context completing, the outcome is a result,
never an error value. -/
theorem watch_timeout_returns_accumulator (st : LoopState) (ms : Int)
    (rest : List WatchEvent) :
    watchLoop st (.ctxDone .deadline ms :: rest) =
        .ok { Comments := st.newComments, TimedOut := true,
              Cancelled := false, WatchedMs := ms } ∧
    ∀ cause : DoneCause, ∃ r : WatchResult,
      watchLoop st (.ctxDone cause ms :: rest) = .ok r ∧
      r.Comments = st.newComments ∧ r.TimedOut = causeTimedOut cause :=
  ⟨rfl, fun cause => ⟨_, rfl, rfl, rfl⟩⟩

/-- C6: the tick case's diff pass implements the spec's Diff Tracker: the
accumulator gains exactly `diffSpec`'s new comments, appended at the end;
the observed set afterwards holds exactly the old identities plus the new
comments' identities; the new comments preserve the input order (they form
a sublist of the fetched sequence); every comment classified as new had an
unobserved identity (so comments with an already-present identity —
including edits — are silently dropped); and every fetched identity is
observed afterwards. -/
theorem diff_step_spec (st : LoopState) (cs : List Comment) :
    ((processFetch st cs).newComments
        = st.newComments ++ (diffSpec st.knownIDs cs).1) ∧
    (∀ x, x ∈ (processFetch st cs).knownIDs ↔
        x ∈ (diffSpec st.knownIDs cs).2) ∧
    (diffSpec st.knownIDs cs).1.Sublist cs ∧
    (∀ c ∈ (diffSpec st.knownIDs cs).1, c.ID ∉ st.knownIDs) ∧
    (∀ x, x ∈ (diffSpec st.knownIDs cs).2 ↔
        x ∈ st.knownIDs ∨ ∃ c ∈ (diffSpec st.knownIDs cs).1, c.ID = x) ∧
    (∀ c ∈ cs, c.ID ∈ (diffSpec st.knownIDs cs).2) := by
  obtain ⟨h1, h2, _h3, _h4⟩ :=
    processFetch_char cs st st.knownIDs (fun x => Iff.rfl)
  exact ⟨h1, h2, diffSpec_sublist cs st.knownIDs,
    fun c hc => diffSpec_new_unobserved cs st.knownIDs c hc,
    fun x => diffSpec_mem_updated cs st.knownIDs x,
    fun c hc => diffSpec_input_observed cs st.knownIDs c hc⟩

/-- Witness for C6 on a concrete state and fetch: the comment classified as
new had an unobserved identity. -/
theorem diff_step_spec_witness :
    sampleReviewComment.ID ∉ sampleState.knownIDs :=
  (diff_step_spec sampleState [sampleReviewComment]).2.2.2.1
    sampleReviewComment (by decide)

/-- C7: the exit code is 1 on error; a returned result exits 2 exactly when
it timed out without cancellation and with zero accumulated comments, and 0
in every other case — in particular any cancelled result exits 0, even with
zero comments. -/
theorem exit_code_convention :
    (∀ e : WatchError, watchExitCode (.err e) = some 1) ∧
    (∀ r : WatchResult,
        (watchExitCode (.ok r) = some 2 ↔
          r.TimedOut = true ∧ r.Cancelled = false ∧ r.Comments = []) ∧
        (watchExitCode (.ok r) = some 0 ↔
          ¬(r.TimedOut = true ∧ r.Cancelled = false ∧ r.Comments = []))) ∧
    (∀ r : WatchResult, r.Cancelled = true →
        watchExitCode (.ok r) = some 0) := by
  refine ⟨fun e => rfl, ?_, ?_⟩
  · intro r
    simp only [watchExitCode]
    by_cases hcond : (r.TimedOut && !r.Cancelled && r.Comments.isEmpty) = true
    · have hdecomp : r.TimedOut = true ∧ r.Cancelled = false ∧
          r.Comments = [] := by
        have h' := hcond
        simp only [Bool.and_eq_true, Bool.not_eq_true',
          List.isEmpty_iff] at h'
        exact ⟨h'.1.1, h'.1.2, h'.2⟩
      rw [if_pos hcond]
      exact ⟨⟨fun _ => hdecomp, fun _ => rfl⟩,
        ⟨fun h0 => absurd h0 (by simp), fun hn => absurd hdecomp hn⟩⟩
    · have hdecomp : ¬(r.TimedOut = true ∧ r.Cancelled = false ∧
          r.Comments = []) := by
        intro hall
        exact hcond (by simp [hall.1, hall.2.1, hall.2.2])
      rw [if_neg hcond]
      exact ⟨⟨fun h0 => absurd h0 (by simp), fun hcc => absurd hcc hdecomp⟩,
        ⟨fun _ => hdecomp, fun _ => rfl⟩⟩
  · intro r hC
    simp only [watchExitCode]
    rw [if_neg (by simp [hC])]

/-- Witness for C7: a cancelled result with zero accumulated comments exits
0, not 2. -/
theorem exit_code_convention_witness :
    watchExitCode (.ok { Comments := [], TimedOut := false, Cancelled := true, WatchedMs := 500 }) = some 0 :=
  exit_code_convention.2.2 _ rfl

/-- C9: a poll whose fetch fails below the fatal ceiling continues the loop
and leaves `knownIDs`, `newComments` and the debounce arming untouched —
only the error counter advances. -/
theorem transient_failure_frame (st : LoopState)
    (h : st.consecutiveErrors + 1 < maxConsecutiveErrs) :
    (∃ st', watchStep st (.tick none) = .cont st' ∧
      st'.knownIDs = st.knownIDs ∧ st'.newComments = st.newComments ∧
      st'.debounceArmed = st.debounceArmed ∧
      st'.consecutiveErrors = st.consecutiveErrors + 1) ∧
    ∀ rest, watchLoop st (.tick none :: rest) =
      watchLoop { st with consecutiveErrors := st.consecutiveErrors + 1 }
        rest := by
  have hcond : ¬ (st.consecutiveErrors + 1 ≥ maxConsecutiveErrs) := by omega
  constructor
  · refine ⟨{ st with consecutiveErrors := st.consecutiveErrors + 1 },
      ?_, rfl, rfl, rfl, rfl⟩
    simp only [watchStep]
    rw [if_neg hcond]
  · intro rest
    refine watchLoop_cons_cont st _ _ rest ?_
    simp only [watchStep]
    rw [if_neg hcond]

/-- Witness for C9: a single failing poll from a fresh state leaves the
watch running with the state unchanged except for the counter. -/
theorem transient_failure_frame_witness :
    watchLoop (initialState []) [.tick none] =
      .running { initialState [] with consecutiveErrors := 1 } := by
  have h := (transient_failure_frame (initialState []) (by decide)).2 []
  simpa [watchLoop] using h

/-- C10 (counterexample): `TimedOut = false` alone does not imply a
non-empty `Comments` — a run cancelled before any new comment arrived
returns a non-error result with `TimedOut = false` and an empty
accumulator. -/
theorem debounce_path_nonempty_cex :
    ¬ (∀ (init : Option (List Comment)) (events : List WatchEvent)
          (r : WatchResult),
        Watch init events = .ok r → r.TimedOut = false →
          r.Comments ≠ []) := by
  intro h
  exact h (some []) [.ctxDone .interrupt 500]
    { Comments := [], TimedOut := false, Cancelled := true, WatchedMs := 500 }
    rfl rfl rfl

/-- C10 (amended): a non-error result with `TimedOut = false` **and**
`Cancelled = false` — the debounce path — carries at least one comment: the
debounce timer only fires once armed, and arming happens only when a new
comment was appended to the accumulator. -/
theorem debounce_result_nonempty (init : Option (List Comment))
    (events : List WatchEvent) (r : WatchResult)
    (h : Watch init events = .ok r) (ht : r.TimedOut = false)
    (hc : r.Cancelled = false) : r.Comments ≠ [] := by
  cases init with
  | none => simp [Watch] at h
  | some base =>
    have hinv : BaselineInv (base.map (·.ID)) (initialState base) :=
      ⟨fun x hx => hx, by simp [initialState], by simp [initialState]⟩
    exact (watchLoop_ok_props (base.map (·.ID)) events (initialState base) r
      hinv h).2 ht hc

/-- Witness for C10's amended claim on a concrete debounce run. -/
theorem debounce_result_nonempty_witness :
    ([sampleReviewComment] : List Comment) ≠ [] :=
  debounce_result_nonempty (some [])
    [.tick (some [sampleReviewComment]), .debounceFire 42]
    { Comments := [sampleReviewComment], TimedOut := false,
      Cancelled := false, WatchedMs := 42 } rfl rfl rfl

end GhPrReview
